import Mathlib

/-!
Verification development for the voice-ordering backend (`src/app.py`).

The Python source is shallowly embedded: every function below mirrors one
Python function (or one inlined block of `process_order`), working over
`List Char` for the text processing that the Python code does with `str`
methods and the two regular expressions it uses.  Prices are embedded as
exact rationals (the Python floats denote cent-exact decimal literals).
-/

namespace VoiceOrder

/-! ## Python string primitives -/

/-- Python `str.isspace` characters that matter here (`strip`, `\s`). -/
def isSpaceCh (c : Char) : Bool :=
  c == ' ' || c == '\t' || c == '\n' || c == '\r' ||
  c == Char.ofNat 11 || c == Char.ofNat 12

/-- A `\w` character of the regexes in `app.py` (ASCII fragment). -/
def isWordCh (c : Char) : Bool := c.isAlphanum || c == '_'

/-- ASCII lowering, as Python `str.lower` acts on the ASCII inputs used here. -/
def lowerCh (c : Char) : Char :=
  if 'A' ≤ c && c ≤ 'Z' then Char.ofNat (c.toNat + 32) else c

/-- Python `str.lower`. -/
def pyLower (l : List Char) : List Char := l.map lowerCh

/-- Python `str.strip`. -/
def pyStrip (l : List Char) : List Char :=
  ((l.dropWhile isSpaceCh).reverse.dropWhile isSpaceCh).reverse

/-- `needle` starts `hay` (used to embed Python substring tests). -/
def leadsWith : List Char → List Char → Bool
  | [], _ => true
  | _ :: _, [] => false
  | a :: as, b :: bs => a == b && leadsWith as bs

/-- Python `needle in hay` on strings: `needle` occurs contiguously in `hay`. -/
def isIn (needle : List Char) : List Char → Bool
  | [] => leadsWith needle []
  | c :: t => leadsWith needle (c :: t) || isIn needle t

/-! ## Menu catalog (`MENU` in `app.py`, insertion order preserved) -/

structure MenuEntry where
  name : String
  price : ℚ
deriving DecidableEq

def MENU : List (String × MenuEntry) :=
  [ ("burger", ⟨"Burger", 8.99⟩),
    ("cheeseburger", ⟨"Cheeseburger", 9.99⟩),
    ("pizza", ⟨"Pizza", 12.99⟩),
    ("pasta", ⟨"Pasta", 10.99⟩),
    ("salad", ⟨"Salad", 7.99⟩),
    ("fries", ⟨"Fries", 3.99⟩),
    ("chicken wings", ⟨"Chicken Wings", 11.99⟩),
    ("sandwich", ⟨"Sandwich", 6.99⟩),
    ("soda", ⟨"Soda", 2.99⟩),
    ("water", ⟨"Water", 1.99⟩),
    ("coffee", ⟨"Coffee", 3.49⟩),
    ("milkshake", ⟨"Milkshake", 5.99⟩) ]

/-- Python `item_name in MENU` / `MENU[item_name]` (dict key lookup). -/
def lookupMenu (k : String) : Option MenuEntry :=
  (MENU.find? (fun p => p.1 == k)).map (fun p => p.2)

def RESTAURANT_NAME : String := "Twilight Cafe"

def ASSISTANT_NAME : String := "Plato"

/-! ## Intent patterns: `is_greeting_or_casual` -/

/-- One regex of the shape `^stem c+$` (`^hi+$`, `^hello+$`, `^hey+$`):
the whole string is `stem` followed by one or more copies of `c`. -/
def stemRep (t stem : List Char) (c : Char) : Bool :=
  leadsWith stem t && !(t.drop stem.length).isEmpty &&
    (t.drop stem.length).all (fun d => d == c)

/-- `is_greeting_or_casual` from `app.py`: the lowered, stripped text must
match one of the fixed whole-string patterns (`re.match` with `^...$`). -/
def is_greeting_or_casual (text : String) : Bool :=
  let t := pyStrip (pyLower text.toList)
  stemRep t ['h'] 'i' || stemRep t "hell".toList 'o' || stemRep t "he".toList 'y' ||
  t == "good morning".toList || t == "good afternoon".toList ||
  t == "good evening".toList || t == "how are you".toList ||
  t == "thanks".toList || t == "thank you".toList ||
  t == "okay".toList || t == "ok".toList || t == "yes".toList ||
  t == "no".toList || t == "sure".toList || t == "alright".toList ||
  t == "please".toList

/-! ## Order items and fallback extraction -/

/-- A line item as built by both extraction paths (denormalized copy of the
menu entry plus a quantity). -/
structure Item where
  key : String
  name : String
  price : ℚ
  quantity : Int
deriving DecidableEq

/-- `quantity_map` from `fallback_extract_order`. -/
def quantity_map : List (List Char × Nat) :=
  [ ("a".toList, 1), ("an".toList, 1), ("one".toList, 1),
    ("two".toList, 2), ("three".toList, 3), ("four".toList, 4),
    ("five".toList, 5), ("six".toList, 6), ("seven".toList, 7),
    ("eight".toList, 8), ("nine".toList, 9), ("ten".toList, 10) ]

/-- Attempt to match the regex `(\w+)\s+key` at the head of `l`, returning
the `\w+` group.  Because `\w` and `\s` are disjoint and no menu key starts
with whitespace, the greedy runs are forced to be the maximal ones. -/
def matchQtyAt (l key : List Char) : Option (List Char) :=
  let w := l.takeWhile isWordCh
  if w.isEmpty then none
  else
    let rest := l.drop w.length
    let s := rest.takeWhile isSpaceCh
    if s.isEmpty then none
    else if leadsWith key (rest.drop s.length) then some w else none

/-- `re.search(r'(\w+)\s+' + menu_key, text)`: the leftmost match's group 1. -/
def searchQty (key : List Char) : List Char → Option (List Char)
  | [] => none
  | c :: t =>
    match matchQtyAt (c :: t) key with
    | some w => some w
    | none => searchQty key t

/-- Python `str.isdigit` on the captured group (nonempty by construction). -/
def isDigits (w : List Char) : Bool := !w.isEmpty && w.all Char.isDigit

/-- Python `int(...)` on a digit string. -/
def digitsToNat (w : List Char) : Nat :=
  w.foldl (fun n c => 10 * n + (c.toNat - 48)) 0

/-- The quantity `fallback_extract_order` attaches to a matched menu key:
the word before the key if it is a number word or a digit string, else 1. -/
def fallbackQty (t key : List Char) : Nat :=
  match searchQty key t with
  | none => 1
  | some w =>
    match quantity_map.find? (fun p => p.1 == w) with
    | some p => p.2
    | none => if isDigits w then digitsToNat w else 1

/-- `fallback_extract_order` from `app.py`: for each menu key (in menu
order) that occurs in the lowered text, emit one item with the looked-up
quantity. -/
def fallback_extract_order (user_text : String) : List Item :=
  let t := pyLower user_text.toList
  MENU.filterMap (fun p =>
    if isIn p.1.toList t then
      some ⟨p.1, p.2.name, p.2.price, (fallbackQty t p.1.toList : Nat)⟩
    else none)

/-! ## Primary extraction path: validation of the parsed service response -/

/-- One element of the JSON array parsed from the language-service response:
`item.get('item', '')` and `item.get('quantity', 1)` read these fields. -/
structure RawItem where
  item : Option String
  quantity : Option Int
deriving DecidableEq

/-- The errors the primary path can raise inside its `try` block. -/
inductive PrimaryError
  | serviceFailure
  | unparseableResponse
  | wrongShape
deriving DecidableEq

/-- The validation loop body of `extract_order_with_gemini` (lines 119-145):
exact menu lookup of the lowered, stripped reported name, else the first
fuzzy containment match over the menu keys, else drop the element. -/
def validateOne (r : RawItem) : Option Item :=
  let item_name : List Char := pyStrip (pyLower (r.item.getD "").toList)
  let nameS : String := String.mk item_name
  let q : Int := r.quantity.getD 1
  match lookupMenu nameS with
  | some e => some ⟨nameS, e.name, e.price, q⟩
  | none =>
    match MENU.find? (fun p => isIn p.1.toList item_name || isIn item_name p.1.toList) with
    | some p => some ⟨p.1, p.2.name, p.2.price, q⟩
    | none => none

def validate_items (raws : List RawItem) : List Item :=
  raws.filterMap validateOne

/-- `extract_order_with_gemini` from `app.py`.  The external call, the JSON
parsing and the shape check are summarized by `svc`: `none` is the
unconfigured-model branch (`if not model`), `some (.error e)` is any
exception inside the `try` block, `some (.ok raws)` is a successfully
parsed response handed to the validation loop. -/
def extract_order_with_gemini (user_text : String)
    (svc : Option (Except PrimaryError (List RawItem))) : List Item :=
  if is_greeting_or_casual user_text then []
  else
    match svc with
    | none => fallback_extract_order user_text
    | some (Except.error _) => fallback_extract_order user_text
    | some (Except.ok raws) => validate_items raws

/-! ## Cart merge and totals (`process_order`, lines 417-424) -/

/-- The per-item merge step: `next((x for x in cart if x['key'] == key), None)`
then either the in-place quantity increment or the append. -/
def add_item : List Item → Item → List Item
  | [], it => [it]
  | x :: xs, it =>
    if x.key == it.key then
      { x with quantity := x.quantity + it.quantity } :: xs
    else
      x :: add_item xs it

/-- `sum(item['price'] * item['quantity'] for item in cart)`. -/
def cart_total (c : List Item) : ℚ :=
  (c.map (fun i => i.price * (i.quantity : ℚ))).sum

/-- The unit price the menu carries for a key (0 if the key is unknown). -/
def menuPriceOf (k : String) : ℚ :=
  ((lookupMenu k).map MenuEntry.price).getD 0

/-! ## Response composer, degraded mode (`get_fallback_response`) -/

/-- Two-decimal dollar formatting of a cent-exact nonnegative total
(Python `f"{total:.2f}"` on the values this system produces). -/
def fmtMoney (q : ℚ) : String :=
  let n : Nat := (q * 100).floor.toNat
  toString (n / 100) ++ "." ++ (if n % 100 < 10 then "0" else "") ++ toString (n % 100)

/-- `', '.join(f"{item['quantity']} {item['name']}" for ...)`. -/
def itemsText (items : List Item) : String :=
  String.intercalate ", " (items.map (fun i => toString i.quantity ++ " " ++ i.name))

/-- `get_fallback_response` from `app.py`: the canned replies used whenever
the generation model is unavailable. -/
def get_fallback_response (action : String) (added_items : List Item) (total : ℚ) : String :=
  if action == "welcome" then
    "Hey! Welcome to " ++ RESTAURANT_NAME ++ "! I'm " ++ ASSISTANT_NAME ++
      ". What can I get you today?"
  else if action == "greeting" then
    "Hey! What sounds good to you?"
  else if action == "add" && !added_items.isEmpty then
    "Nice! Got your " ++ itemsText added_items ++ ". That's $" ++ fmtMoney total ++
      " so far. Want anything else?"
  else if action == "no_items" then
    "Sorry, didn't catch that! What would you like?"
  else if action == "checkout" then
    "Awesome! Thanks for ordering. Your total is $" ++ fmtMoney total ++
      ". We'll have that ready soon!"
  else
    "What can I get for you?"

/-! ## Session store and `process_order` -/

/-- The per-session state: `carts[session_id]` and
`conversation_history[session_id]`. -/
structure SessionState where
  cart : List Item
  history : List String
deriving DecidableEq

/-- The JSON body `process_order` returns.  Fields the Python code omits in
a branch are `none` there (`items_added`, `is_greeting`, `checkout`). -/
structure ProcResult where
  success : Bool
  cart : List Item
  total : ℚ
  response : String
  items_added : Option (List Item)
  is_greeting : Option Bool
  checkout : Option Bool
deriving DecidableEq

/-- The clear-cart substrings of `process_order` (line 354). -/
def clear_words : List (List Char) :=
  [ "clear".toList, "empty cart".toList, "remove everything".toList,
    "reset cart".toList ]

/-- `checkout_phrases` from `process_order` (lines 368-372). -/
def checkout_phrases : List (List Char) :=
  [ "checkout".toList, "check out".toList, "complete order".toList,
    "complete my order".toList, "finish order".toList, "done".toList,
    "that's all".toList, "that is all".toList, "finish".toList,
    "place order".toList, "place my order".toList, "complete".toList,
    "i'm done".toList, "im done".toList ]

/-- Lines 331-334 of `app.py`: append one history record, then truncate to
the most recent 10 when the new length exceeds 10. -/
def append_history (h : List String) (s : String) : List String :=
  let h1 := h ++ [s]
  if 10 < h1.length then h1.drop (h1.length - 10) else h1

/-- `process_order` from `app.py`, in the degraded configuration for the
reply text (the generation model absent, so replies are the canned
fallbacks) and with the extraction-service outcome passed as `svc`.
Returns the response body and the new session state. -/
def process_order (st : SessionState) (text : String)
    (svc : Option (Except PrimaryError (List RawItem))) : ProcResult × SessionState :=
  let h2 := append_history st.history ("Customer: " ++ text)
  let lower := pyLower text.toList
  if is_greeting_or_casual text then
    let resp := get_fallback_response "greeting" [] 0
    ({ success := true, cart := st.cart, total := cart_total st.cart, response := resp,
       items_added := some [], is_greeting := some true, checkout := none },
     { cart := st.cart, history := h2 ++ [ASSISTANT_NAME ++ ": " ++ resp] })
  else if (clear_words.any (fun w => isIn w lower)) then
    let resp := "Cart cleared! What would you like to order?"
    ({ success := true, cart := [], total := 0, response := resp,
       items_added := some [], is_greeting := none, checkout := none },
     { cart := [], history := h2 ++ [ASSISTANT_NAME ++ ": " ++ resp] })
  else if (checkout_phrases.any (fun w => isIn w lower)) then
    if st.cart.isEmpty then
      let resp := "Your cart's empty! What would you like?"
      ({ success := false, cart := [], total := 0, response := resp,
         items_added := none, is_greeting := none, checkout := some false },
       { cart := st.cart, history := h2 ++ [ASSISTANT_NAME ++ ": " ++ resp] })
    else
      let t := cart_total st.cart
      let resp := get_fallback_response "checkout" [] t
      ({ success := true, cart := st.cart, total := t, response := resp,
         items_added := none, is_greeting := none, checkout := some true },
       { cart := st.cart, history := h2 ++ [ASSISTANT_NAME ++ ": " ++ resp] })
  else
    let extracted := extract_order_with_gemini text svc
    if extracted.isEmpty then
      let resp := get_fallback_response "no_items" [] 0
      ({ success := false, cart := st.cart, total := cart_total st.cart, response := resp,
         items_added := some [], is_greeting := none, checkout := none },
       { cart := st.cart, history := h2 ++ [ASSISTANT_NAME ++ ": " ++ resp] })
    else
      let newCart := extracted.foldl add_item st.cart
      let t := cart_total newCart
      let resp := get_fallback_response "add" extracted t
      ({ success := true, cart := newCart, total := t, response := resp,
         items_added := some extracted, is_greeting := none, checkout := none },
       { cart := newCart, history := h2 ++ [ASSISTANT_NAME ++ ": " ++ resp] })

/-- A session that starts empty and serves a sequence of
`process-order` requests. -/
def run_requests
    (reqs : List (String × Option (Except PrimaryError (List RawItem)))) : SessionState :=
  reqs.foldl (fun st r => (process_order st r.1 r.2).2) ⟨[], []⟩

/-! ## Helper lemmas -/

/-- Looking a menu entry up by its own key finds it (menu keys are distinct). -/
theorem menu_lookup_mem : ∀ p ∈ MENU, lookupMenu p.1 = some p.2 := by
  intro p hp
  fin_cases hp <;> rfl

/-- The truncating history append never leaves more than 10 records. -/
theorem append_history_length_le (h : List String) (s : String) :
    (append_history h s).length ≤ 10 := by
  simp only [append_history]
  split
  · rw [List.length_drop]
    omega
  · rename_i hle
    simp only [List.length_append, List.length_singleton] at *
    omega

/-- Every branch of `process_order` ends the history with the truncated
customer append followed by one assistant record. -/
theorem process_order_history (st : SessionState) (text : String)
    (svc : Option (Except PrimaryError (List RawItem))) :
    ∃ resp, (process_order st text svc).2.history
      = append_history st.history ("Customer: " ++ text)
          ++ [ASSISTANT_NAME ++ ": " ++ resp] := by
  simp only [process_order]
  split
  · exact ⟨_, rfl⟩
  · split
    · exact ⟨_, rfl⟩
    · split
      · split
        · exact ⟨_, rfl⟩
        · exact ⟨_, rfl⟩
      · split
        · exact ⟨_, rfl⟩
        · exact ⟨_, rfl⟩

/-- The cart `process_order` leaves behind: unchanged, cleared, or the
extracted items folded in. -/
theorem process_order_cart_cases (st : SessionState) (text : String)
    (svc : Option (Except PrimaryError (List RawItem))) :
    (process_order st text svc).2.cart = st.cart ∨
    (process_order st text svc).2.cart = [] ∨
    (process_order st text svc).2.cart
      = (extract_order_with_gemini text svc).foldl add_item st.cart := by
  simp only [process_order]
  split
  · left; rfl
  · split
    · right; left; rfl
    · split
      · split
        · left; rfl
        · left; rfl
      · split
        · left; rfl
        · right; right; rfl

/-- Every fallback item is a menu row (in full: key, display name and price
are copied from one `MENU` pair) with the computed quantity. -/
theorem mem_fallback_extract (text : String) (it : Item)
    (h : it ∈ fallback_extract_order text) :
    ∃ p ∈ MENU,
      it = ⟨p.1, p.2.name, p.2.price,
            (fallbackQty (pyLower text.toList) p.1.toList : Nat)⟩ := by
  simp only [fallback_extract_order] at h
  obtain ⟨p, hp, hf⟩ := List.mem_filterMap.1 h
  refine ⟨p, hp, ?_⟩
  split at hf
  · exact (Option.some_injective _ hf).symm
  · exact absurd hf (by simp)

/-- Every validated primary-path item is a menu row with the reported
quantity (default 1). -/
theorem mem_validate_items (raws : List RawItem) (it : Item)
    (h : it ∈ validate_items raws) :
    ∃ p ∈ MENU, ∃ q : Int, it = ⟨p.1, p.2.name, p.2.price, q⟩ := by
  simp only [validate_items] at h
  obtain ⟨r, _, hv⟩ := List.mem_filterMap.1 h
  simp only [validateOne] at hv
  cases hlk : lookupMenu (String.mk (pyStrip (pyLower ((r.item.getD "").toList)))) with
  | some e =>
    rw [hlk] at hv
    simp only [lookupMenu, Option.map_eq_some'] at hlk
    obtain ⟨p, hfind, hpe⟩ := hlk
    have hpk : p.1 = String.mk (pyStrip (pyLower ((r.item.getD "").toList))) := by
      have := List.find?_some hfind
      simpa using this
    refine ⟨p, List.mem_of_find?_eq_some hfind, r.quantity.getD 1, ?_⟩
    cases hv
    rw [hpk, hpe]
  | none =>
    rw [hlk] at hv
    cases hfd : MENU.find? (fun p =>
        isIn p.1.toList (pyStrip (pyLower ((r.item.getD "").toList)))
        || isIn (pyStrip (pyLower ((r.item.getD "").toList))) p.1.toList) with
    | some p =>
      rw [hfd] at hv
      refine ⟨p, List.mem_of_find?_eq_some hfd, r.quantity.getD 1, ?_⟩
      cases hv
      rfl
    | none =>
      rw [hfd] at hv
      exact absurd hv (by simp)

/-- Every item either extraction path emits is a menu row. -/
theorem mem_extract (text : String)
    (svc : Option (Except PrimaryError (List RawItem))) (it : Item)
    (h : it ∈ extract_order_with_gemini text svc) :
    ∃ p ∈ MENU, ∃ q : Int, it = ⟨p.1, p.2.name, p.2.price, q⟩ := by
  simp only [extract_order_with_gemini] at h
  split at h
  · exact absurd h (by simp)
  · match svc with
    | none =>
      obtain ⟨p, hp, heq⟩ := mem_fallback_extract text it h
      exact ⟨p, hp, _, heq⟩
    | some (Except.error _) =>
      obtain ⟨p, hp, heq⟩ := mem_fallback_extract text it h
      exact ⟨p, hp, _, heq⟩
    | some (Except.ok raws) =>
      exact mem_validate_items raws it h

/-! ## Claims -/

/-- Claim C1 is false on the code: processed by the deterministic
(fallback) extraction path, the request "I'd like a cheeseburger and two
sodas" against an empty cart also matches the menu key `burger` (a
substring of `cheeseburger`), so the returned cart holds three line items
and the returned total is not 15.97. -/
theorem claim_C1_counterexample :
    (process_order ⟨[], []⟩ "I'd like a cheeseburger and two sodas" none).1.cart
      = [⟨"burger", "Burger", 8.99, 1⟩, ⟨"cheeseburger", "Cheeseburger", 9.99, 1⟩,
         ⟨"soda", "Soda", 2.99, 2⟩]
    ∧ (process_order ⟨[], []⟩ "I'd like a cheeseburger and two sodas" none).1.total
        ≠ 15.97 := by
  refine ⟨rfl, ?_⟩
  have h : (process_order ⟨[], []⟩ "I'd like a cheeseburger and two sodas" none).1.total
      = cart_total [⟨"burger", "Burger", 8.99, 1⟩,
          ⟨"cheeseburger", "Cheeseburger", 9.99, 1⟩, ⟨"soda", "Soda", 2.99, 2⟩] := rfl
  rw [h]
  simp [cart_total]
  norm_num

/-- Claim C1 amended: the deterministic extraction path double-counts the
overlapping key `burger`, so the returned cart is
burger 1, cheeseburger 1, soda 2 and the returned total is
8.99 + 9.99 + 2 × 2.99 = 24.96. -/
theorem claim_C1_amended :
    (process_order ⟨[], []⟩ "I'd like a cheeseburger and two sodas" none).1.cart
      = [⟨"burger", "Burger", 8.99, 1⟩, ⟨"cheeseburger", "Cheeseburger", 9.99, 1⟩,
         ⟨"soda", "Soda", 2.99, 2⟩]
    ∧ (process_order ⟨[], []⟩ "I'd like a cheeseburger and two sodas" none).1.total
        = 24.96
    ∧ (process_order ⟨[], []⟩ "I'd like a cheeseburger and two sodas" none).1.success
        = true := by
  refine ⟨rfl, ?_, rfl⟩
  have h : (process_order ⟨[], []⟩ "I'd like a cheeseburger and two sodas" none).1.total
      = cart_total [⟨"burger", "Burger", 8.99, 1⟩,
          ⟨"cheeseburger", "Cheeseburger", 9.99, 1⟩, ⟨"soda", "Soda", 2.99, 2⟩] := rfl
  rw [h]
  simp [cart_total]
  norm_num

/-- Claim C2 is false on the code: `process_order` truncates the history
only after appending the customer record, then appends the assistant
record untruncated, so after the sixth request of a session the history
holds 11 records, exceeding the claimed maximum of 10. -/
theorem claim_C2_counterexample :
    (run_requests (List.replicate 6 ("hi", none))).history.length = 11
    ∧ ¬ (run_requests (List.replicate 6 ("hi", none))).history.length ≤ 10 := by
  constructor
  · decide
  · decide

/-- Claim C2 amended: the truncating append (applied to the customer
record) keeps at most 10 records and drops only the oldest, and 15 such
appends evict exactly the oldest 5; but a completed `process_order`
request then appends the assistant record without truncating, so the
history length after a request is bounded by 11, not 10. -/
theorem claim_C2_amended :
    (∀ (h : List String) (s : String),
        (append_history h s).length ≤ 10
        ∧ ∃ k, append_history h s = (h ++ [s]).drop k)
    ∧ (∀ m1 m2 m3 m4 m5 m6 m7 m8 m9 m10 m11 m12 m13 m14 m15 : String,
        List.foldl append_history []
            [m1, m2, m3, m4, m5, m6, m7, m8, m9, m10, m11, m12, m13, m14, m15]
          = [m6, m7, m8, m9, m10, m11, m12, m13, m14, m15])
    ∧ (∀ (st : SessionState) (text : String)
          (svc : Option (Except PrimaryError (List RawItem))),
        ((process_order st text svc).2).history.length ≤ 11) := by
  refine ⟨fun h s => ⟨append_history_length_le h s, ?_⟩, ?_, ?_⟩
  · simp only [append_history]
    split
    · exact ⟨(h ++ [s]).length - 10, rfl⟩
    · exact ⟨0, (List.drop_zero _).symm⟩
  · intros
    simp [append_history]
  · intro st text svc
    obtain ⟨resp, hresp⟩ := process_order_history st text svc
    rw [hresp]
    simp only [List.length_append, List.length_singleton]
    have := append_history_length_le st.history ("Customer: " ++ text)
    omega

/-- Claim C3 is false on the code: both extraction paths can emit a
quantity below 1.  The fallback path parses the literal digit 0 before a
key ("0 burger") into quantity 0, and the primary validation keeps a
reported quantity of 0 unchanged. -/
theorem claim_C3_counterexample :
    (fallback_extract_order "0 burger").any (fun it => decide (it.quantity < 1)) = true
    ∧ (validate_items [⟨some "burger", some 0⟩]).any
        (fun it => decide (it.quantity < 1)) = true := by
  exact ⟨rfl, rfl⟩

/-- Claim C3 amended: every line item either path returns has a key that is
a valid menu key; fallback quantities are integers that are at least 0 but
not necessarily at least 1, and primary-path quantities are whatever the
service reported (1 when absent), unvalidated. -/
theorem claim_C3_amended :
    (∀ (text : String), ∀ it ∈ fallback_extract_order text,
        (lookupMenu it.key).isSome = true ∧ 0 ≤ it.quantity)
    ∧ (∀ (raws : List RawItem), ∀ it ∈ validate_items raws,
        (lookupMenu it.key).isSome = true) := by
  constructor
  · intro text it hit
    obtain ⟨p, hp, heq⟩ := mem_fallback_extract text it hit
    subst heq
    refine ⟨?_, Int.natCast_nonneg _⟩
    rw [menu_lookup_mem p hp]
    rfl
  · intro raws it hit
    obtain ⟨p, hp, q, heq⟩ := mem_validate_items raws it hit
    subst heq
    rw [menu_lookup_mem p hp]
    rfl

/-- Witness for the amended C3: a concrete fallback item with the
hypotheses discharged. -/
theorem claim_C3_amended_witness :
    ((⟨"burger", "Burger", 8.99, 1⟩ : Item) ∈ fallback_extract_order "a burger")
    ∧ ((lookupMenu "burger").isSome = true ∧ 0 ≤ (1 : Int)) := by
  have hm : (⟨"burger", "Burger", 8.99, 1⟩ : Item) ∈ fallback_extract_order "a burger" := by
    have h : fallback_extract_order "a burger" = [⟨"burger", "Burger", 8.99, 1⟩] := rfl
    rw [h]
    exact List.mem_singleton.mpr rfl
  exact ⟨hm, claim_C3_amended.1 "a burger" _ hm⟩

/-- Claim C4 is false on the code: the casual pattern for "please" is the
whole-string regex `^please$`, so the utterance "please anything" is not
classified casual (it falls through to extraction). -/
theorem claim_C4_counterexample :
    is_greeting_or_casual "please anything" = false := by decide

/-- Claim C4 amended: every utterance the classifier marks casual (a
whole-string pattern match on the lowered, stripped text, so including
case variants like "HELLO" but not "please anything") yields no extracted
items, and `process_order` takes the greeting branch, adding nothing and
leaving the cart unchanged. -/
theorem claim_C4_amended :
    (∀ (text : String) (svc : Option (Except PrimaryError (List RawItem)))
        (st : SessionState),
      is_greeting_or_casual text = true →
        extract_order_with_gemini text svc = []
        ∧ (process_order st text svc).1.is_greeting = some true
        ∧ (process_order st text svc).1.items_added = some []
        ∧ (process_order st text svc).2.cart = st.cart)
    ∧ is_greeting_or_casual "HELLO" = true := by
  constructor
  · intro text svc st h
    refine ⟨?_, ?_, ?_, ?_⟩ <;> simp [extract_order_with_gemini, process_order, h]
  · decide

/-- Witness for the amended C4 at the casual utterance "HELLO". -/
theorem claim_C4_amended_witness :
    is_greeting_or_casual "HELLO" = true
    ∧ extract_order_with_gemini "HELLO" none = []
    ∧ (process_order ⟨[], []⟩ "HELLO" none).1.is_greeting = some true := by
  have h : is_greeting_or_casual "HELLO" = true := by decide
  have h2 := claim_C4_amended.1 "HELLO" none ⟨[], []⟩ h
  exact ⟨h, h2.1, h2.2.1⟩

/-- Claim C5 confirmed: whenever the utterance is not casual and has no
clear-cart substring, but its lowered text contains any checkout phrase as
a substring anywhere, `process_order` takes the checkout branch (the only
branch that sets the `checkout` response field). -/
theorem claim_C5_checkout_substring :
    ∀ (st : SessionState) (text : String)
      (svc : Option (Except PrimaryError (List RawItem))),
      is_greeting_or_casual text = false →
      (clear_words.any (fun w => isIn w (pyLower text.toList))) = false →
      (checkout_phrases.any (fun w => isIn w (pyLower text.toList))) = true →
      ((process_order st text svc).1.checkout).isSome = true := by
  intro st text svc h1 h2 h3
  simp only [process_order, h1, h2, h3]
  simp only [Bool.false_eq_true, if_false, if_true]
  split <;> rfl

/-- Witness for C5 at "ok I'm done now": the checkout phrase "i'm done" is
surrounded by other words, and the request still reaches the checkout
branch. -/
theorem claim_C5_witness :
    is_greeting_or_casual "ok I'm done now" = false
    ∧ (clear_words.any (fun w => isIn w (pyLower "ok I'm done now".toList))) = false
    ∧ (checkout_phrases.any (fun w => isIn w (pyLower "ok I'm done now".toList))) = true
    ∧ ((process_order ⟨[], []⟩ "ok I'm done now" none).1.checkout).isSome = true :=
  ⟨by decide, by decide, by decide,
   claim_C5_checkout_substring ⟨[], []⟩ "ok I'm done now" none
     (by decide) (by decide) (by decide)⟩

/-- Claim C8 confirmed: when the primary extraction path raises (service
failure, unparseable JSON, wrong shape - any exception inside the `try`),
the extractor returns exactly the fallback result for the utterance; no
error propagates (the extractor is total). -/
theorem claim_C8_primary_error_fallback :
    ∀ (text : String) (e : PrimaryError),
      is_greeting_or_casual text = false →
      extract_order_with_gemini text (some (Except.error e))
        = fallback_extract_order text := by
  intro text e h
  simp [extract_order_with_gemini, h]

/-- Witness for C8 at a concrete order utterance and a service failure. -/
theorem claim_C8_witness :
    is_greeting_or_casual "a burger" = false
    ∧ extract_order_with_gemini "a burger"
        (some (Except.error PrimaryError.serviceFailure))
        = fallback_extract_order "a burger" :=
  ⟨by decide, claim_C8_primary_error_fallback "a burger" _ (by decide)⟩

/-! ## Cart-merge helper lemmas -/

/-- The key sequence after one merge step: unchanged when the key was
present, extended at the end otherwise. -/
theorem add_item_keys (c : List Item) (it : Item) :
    (add_item c it).map Item.key
      = if it.key ∈ c.map Item.key then c.map Item.key
        else c.map Item.key ++ [it.key] := by
  induction c with
  | nil => simp [add_item]
  | cons x xs ih =>
    simp only [add_item]
    split
    · rename_i hbeq
      have hk : x.key = it.key := by simpa using hbeq
      simp [hk]
    · rename_i hbeq
      have hk : ¬ x.key = it.key := by simpa using hbeq
      have hk2 : it.key ≠ x.key := Ne.symm hk
      simp only [List.map_cons, ih]
      by_cases hm : it.key ∈ xs.map Item.key
      · simp [hm, hk2]
      · simp [hm, hk2]

/-- One merge step keeps the cart keys distinct. -/
theorem add_item_keys_nodup (c : List Item) (it : Item)
    (h : (c.map Item.key).Nodup) : ((add_item c it).map Item.key).Nodup := by
  rw [add_item_keys]
  split
  · exact h
  · rename_i hm
    simp [List.nodup_append, h, hm]

/-- Folding any extracted item list into a cart keeps its keys distinct. -/
theorem foldl_add_item_keys_nodup (items : List Item) (c : List Item)
    (h : (c.map Item.key).Nodup) :
    ((items.foldl add_item c).map Item.key).Nodup := by
  induction items generalizing c with
  | nil => exact h
  | cons it items ih => exact ih _ (add_item_keys_nodup c it h)

/-- Membership after one merge step: an old entry, the new item, or an old
entry with only its quantity increased. -/
theorem add_item_mem (c : List Item) (it x : Item) (hx : x ∈ add_item c it) :
    x ∈ c ∨ x = it
      ∨ ∃ y ∈ c, x = { y with quantity := y.quantity + it.quantity } := by
  induction c with
  | nil =>
    simp only [add_item, List.mem_singleton] at hx
    exact Or.inr (Or.inl hx)
  | cons z zs ih =>
    simp only [add_item] at hx
    split at hx
    · rcases List.mem_cons.1 hx with h | h
      · exact Or.inr (Or.inr ⟨z, List.mem_cons_self .., h⟩)
      · exact Or.inl (List.mem_cons_of_mem _ h)
    · rcases List.mem_cons.1 hx with h | h
      · exact Or.inl (h ▸ List.mem_cons_self ..)
      · rcases ih h with h' | h' | ⟨y, hy, h'⟩
        · exact Or.inl (List.mem_cons_of_mem _ h')
        · exact Or.inr (Or.inl h')
        · exact Or.inr (Or.inr ⟨y, List.mem_cons_of_mem _ hy, h'⟩)

/-- Merging menu rows into a cart of menu rows yields menu rows (the key,
name and price of each entry agree with the menu). -/
theorem foldl_add_item_wellpriced (items c : List Item)
    (hc : ∀ x ∈ c, lookupMenu x.key = some ⟨x.name, x.price⟩)
    (hitems : ∀ x ∈ items, lookupMenu x.key = some ⟨x.name, x.price⟩) :
    ∀ x ∈ items.foldl add_item c, lookupMenu x.key = some ⟨x.name, x.price⟩ := by
  induction items generalizing c with
  | nil => exact hc
  | cons it items ih =>
    refine ih _ ?_ (fun x hx => hitems x (List.mem_cons_of_mem _ hx))
    intro x hx
    rcases add_item_mem c it x hx with h | h | ⟨y, hy, h⟩
    · exact hc x h
    · exact h ▸ hitems it (List.mem_cons_self ..)
    · exact h ▸ hc y hy

/-- Every item either extraction path emits is priced from the menu. -/
theorem extract_wellpriced (text : String)
    (svc : Option (Except PrimaryError (List RawItem))) :
    ∀ x ∈ extract_order_with_gemini text svc,
      lookupMenu x.key = some ⟨x.name, x.price⟩ := by
  intro x hx
  obtain ⟨p, hp, q, heq⟩ := mem_extract text svc x hx
  subst heq
  rw [menu_lookup_mem p hp]

/-! ## Remaining claims -/

/-- Claim C6 confirmed: the merge increments an existing key's quantity in
place (preserving its position), appends a new key at the end, and the
total is the sum of quantity times the menu unit price over the cart (every
reachable cart is priced from the menu); in particular "a burger" then
"one burger" in one session leaves one `burger` line with quantity 2 and
total 2 × 8.99. -/
theorem claim_C6_cart_merge :
    (∀ (c : List Item) (it : Item),
        (∀ x ∈ c, x.key ≠ it.key) → add_item c it = c ++ [it])
    ∧ (∀ (p : List Item) (x : Item) (q : List Item) (it : Item),
        x.key = it.key → (∀ y ∈ p, y.key ≠ it.key) →
        add_item (p ++ x :: q) it
          = p ++ { x with quantity := x.quantity + it.quantity } :: q)
    ∧ (∀ c : List Item,
        (∀ x ∈ c, lookupMenu x.key = some ⟨x.name, x.price⟩) →
        cart_total c
          = (c.map (fun x => (x.quantity : ℚ) * menuPriceOf x.key)).sum)
    ∧ (∀ reqs, ∀ x ∈ (run_requests reqs).cart,
        lookupMenu x.key = some ⟨x.name, x.price⟩)
    ∧ ((process_order (process_order ⟨[], []⟩ "a burger" none).2
          "one burger" none).2.cart = [⟨"burger", "Burger", 8.99, 2⟩]
       ∧ (process_order (process_order ⟨[], []⟩ "a burger" none).2
            "one burger" none).1.total = 2 * 8.99) := by
  refine ⟨?_, ?_, ?_, ?_, ?_, ?_⟩
  · intro c it
    induction c with
    | nil => intro _; rfl
    | cons x xs ih =>
      intro h
      have hb : (x.key == it.key) = false := by
        simpa using h x (List.mem_cons_self ..)
      simp only [add_item, hb, Bool.false_eq_true, if_false, List.cons_append]
      rw [ih (fun y hy => h y (List.mem_cons_of_mem _ hy))]
  · intro p
    induction p with
    | nil =>
      intro x q it hx _
      have hb : (x.key == it.key) = true := by simpa using hx
      simp [add_item, hb]
    | cons y p ih =>
      intro x q it hx hp
      have hb : (y.key == it.key) = false := by
        simpa using hp y (List.mem_cons_self ..)
      simp only [List.cons_append, add_item, hb, Bool.false_eq_true, if_false]
      exact congrArg (List.cons y)
        (ih x q it hx (fun z hz => hp z (List.mem_cons_of_mem _ hz)))
  · intro c
    induction c with
    | nil => intro _; rfl
    | cons x xs ih =>
      intro hc
      have hx := hc x (List.mem_cons_self ..)
      have hmp : menuPriceOf x.key = x.price := by simp [menuPriceOf, hx]
      simp only [cart_total, List.map_cons, List.sum_cons] at *
      rw [hmp, ih (fun y hy => hc y (List.mem_cons_of_mem _ hy))]
      ring_nf
  · have step : ∀ (st : SessionState) (text : String)
        (svc : Option (Except PrimaryError (List RawItem))),
        (∀ x ∈ st.cart, lookupMenu x.key = some ⟨x.name, x.price⟩) →
        ∀ x ∈ (process_order st text svc).2.cart,
          lookupMenu x.key = some ⟨x.name, x.price⟩ := by
      intro st text svc h
      rcases process_order_cart_cases st text svc with hc | hc | hc <;> rw [hc]
      · exact h
      · simp
      · exact foldl_add_item_wellpriced _ _ h (extract_wellpriced text svc)
    intro reqs
    suffices H : ∀ (l : List (String × Option (Except PrimaryError (List RawItem))))
        (st : SessionState),
        (∀ x ∈ st.cart, lookupMenu x.key = some ⟨x.name, x.price⟩) →
        ∀ x ∈ (l.foldl (fun st r => (process_order st r.1 r.2).2) st).cart,
          lookupMenu x.key = some ⟨x.name, x.price⟩ by
      exact H reqs ⟨[], []⟩ (by simp)
    intro l
    induction l with
    | nil => intro st h; exact h
    | cons r l ih => intro st h; exact ih _ (step st r.1 r.2 h)
  · rfl
  · have h : (process_order (process_order ⟨[], []⟩ "a burger" none).2
        "one burger" none).1.total
        = cart_total [⟨"burger", "Burger", 8.99, 2⟩] := rfl
    rw [h]
    simp [cart_total]
    norm_num

/-- Witness for C6: merging a new key into a cart that does not contain it
appends it at the end, at a concrete cart and item. -/
theorem claim_C6_witness :
    (∀ x ∈ [(⟨"soda", "Soda", 2.99, 1⟩ : Item)],
        Item.key x ≠ Item.key (⟨"burger", "Burger", 8.99, 1⟩ : Item))
    ∧ add_item [(⟨"soda", "Soda", 2.99, 1⟩ : Item)] ⟨"burger", "Burger", 8.99, 1⟩
        = [⟨"soda", "Soda", 2.99, 1⟩, ⟨"burger", "Burger", 8.99, 1⟩] := by
  have hk : ∀ x ∈ [(⟨"soda", "Soda", 2.99, 1⟩ : Item)],
      Item.key x ≠ Item.key (⟨"burger", "Burger", 8.99, 1⟩ : Item) := by
    intro x hx
    rw [List.mem_singleton.1 hx]
    decide
  exact ⟨hk, claim_C6_cart_merge.1 _ _ hk⟩

/-- Claim C7 confirmed: however a session's requests interleave (any texts,
any extraction-service outcomes, including duplicated keys in one parsed
response), the cart reached holds at most one line item per key. -/
theorem claim_C7_unique_keys :
    ∀ reqs, ((run_requests reqs).cart.map Item.key).Nodup := by
  have step : ∀ (st : SessionState) (text : String)
      (svc : Option (Except PrimaryError (List RawItem))),
      (st.cart.map Item.key).Nodup →
      (((process_order st text svc).2.cart).map Item.key).Nodup := by
    intro st text svc h
    rcases process_order_cart_cases st text svc with hc | hc | hc <;> rw [hc]
    · exact h
    · simp
    · exact foldl_add_item_keys_nodup _ _ h
  intro reqs
  suffices H : ∀ (l : List (String × Option (Except PrimaryError (List RawItem))))
      (st : SessionState), (st.cart.map Item.key).Nodup →
      ((l.foldl (fun st r => (process_order st r.1 r.2).2) st).cart.map Item.key).Nodup by
    exact H reqs ⟨[], []⟩ (by simp)
  intro l
  induction l with
  | nil => intro st h; exact h
  | cons r l ih => intro st h; exact ih _ (step st r.1 r.2 h)

/-- Claim C9 confirmed: a request that is not casual, not clear-cart, not
checkout, and from which extraction yields no items gets `success = false`,
an empty `items_added`, the no-items reply, and the cart and total are
untouched (the handler is total; no error is raised). -/
theorem claim_C9_no_items :
    (∀ (st : SessionState) (text : String)
        (svc : Option (Except PrimaryError (List RawItem))),
      is_greeting_or_casual text = false →
      (clear_words.any (fun w => isIn w (pyLower text.toList))) = false →
      (checkout_phrases.any (fun w => isIn w (pyLower text.toList))) = false →
      extract_order_with_gemini text svc = [] →
        (process_order st text svc).1.success = false
        ∧ (process_order st text svc).1.items_added = some []
        ∧ (process_order st text svc).1.response = get_fallback_response "no_items" [] 0
        ∧ (process_order st text svc).1.cart = st.cart
        ∧ (process_order st text svc).1.total = cart_total st.cart
        ∧ (process_order st text svc).2.cart = st.cart)
    ∧ get_fallback_response "no_items" [] 0
        = "Sorry, didn't catch that! What would you like?" := by
  constructor
  · intro st text svc h1 h2 h3 h4
    simp only [process_order, h1, h2, h3, h4]
    simp only [Bool.false_eq_true, if_false, List.isEmpty_nil, if_true]
    simp
  · rfl

/-- Witness for C9: a nonsense utterance against a one-pizza cart leaves
everything unchanged and reports no items. -/
theorem claim_C9_witness :
    is_greeting_or_casual "xyz" = false
    ∧ extract_order_with_gemini "xyz" none = []
    ∧ (process_order ⟨[⟨"pizza", "Pizza", 12.99, 1⟩], []⟩ "xyz" none).1.success = false
    ∧ (process_order ⟨[⟨"pizza", "Pizza", 12.99, 1⟩], []⟩ "xyz" none).2.cart
        = [⟨"pizza", "Pizza", 12.99, 1⟩] := by
  have h4 : extract_order_with_gemini "xyz" none = [] := rfl
  have h := (claim_C9_no_items.1 ⟨[⟨"pizza", "Pizza", 12.99, 1⟩], []⟩ "xyz" none
    (by decide) (by decide) (by decide) h4)
  exact ⟨by decide, h4, h.1, h.2.2.2.2.2⟩

/-- Claim C10 confirmed: a checkout request against an empty cart responds
`success = false`, `checkout = false`, empty cart, total 0, and the session
cart stays empty; checkout succeeds (`success = true`, `checkout = true`)
exactly when the cart is non-empty. -/
theorem claim_C10_checkout_empty :
    ∀ (st : SessionState) (text : String)
      (svc : Option (Except PrimaryError (List RawItem))),
      is_greeting_or_casual text = false →
      (clear_words.any (fun w => isIn w (pyLower text.toList))) = false →
      (checkout_phrases.any (fun w => isIn w (pyLower text.toList))) = true →
      ((st.cart = [] →
          (process_order st text svc).1.success = false
          ∧ (process_order st text svc).1.checkout = some false
          ∧ (process_order st text svc).1.cart = []
          ∧ (process_order st text svc).1.total = 0
          ∧ (process_order st text svc).2.cart = [])
        ∧ ((process_order st text svc).1.success = true ↔ st.cart ≠ [])
        ∧ ((process_order st text svc).1.checkout = some true ↔ st.cart ≠ [])) := by
  intro st text svc h1 h2 h3
  simp only [process_order, h1, h2, h3]
  simp only [Bool.false_eq_true, if_false, if_true]
  by_cases he : st.cart = []
  · have he' : st.cart.isEmpty = true := by simp [he]
    simp only [he', if_true]
    simp [he]
  · have he' : st.cart.isEmpty = false := by simp [he]
    simp only [he', Bool.false_eq_true, if_false]
    simp [he]

/-- Witness for C10: a bare "checkout" against an empty session. -/
theorem claim_C10_witness :
    is_greeting_or_casual "checkout" = false
    ∧ (process_order ⟨[], []⟩ "checkout" none).1.success = false
    ∧ (process_order ⟨[], []⟩ "checkout" none).1.checkout = some false
    ∧ (process_order ⟨[], []⟩ "checkout" none).1.total = 0 := by
  have h := (claim_C10_checkout_empty ⟨[], []⟩ "checkout" none
    (by decide) (by decide) (by decide)).1 rfl
  exact ⟨by decide, h.1, h.2.1, h.2.2.2.1⟩

end VoiceOrder
